import Mathlib

/-!
Verification of the picpocket CLIP worker (`src/python/classifier.py`).

The worker reads one JSON request from stdin, builds a prompt-embedding
index from an ordered `categories` mapping, scores each image against it
by a per-category top-k mean of cosine similarities, and streams progress
and a final response as JSON lines.

Embedding conventions:
* Embedding vectors are `List ℚ`.  The real-valued L2 norm used at
  `classifier.py:66` and `classifier.py:94` is modelled by its square
  (`vecNorm2`), a rational that vanishes exactly when the true norm does;
  the claims under study concern only the aggregation structure and the
  (absent) zero-norm error path, both invariant under this change of scale.
* The external collaborators (model loading, `embed_text`, `decode_image`,
  `embed_image`) are oracle parameters returning `Except String _`, exactly
  the exception surface the Python code catches (or fails to catch).
* Emitted JSON lines become values of the `Msg` inductive, in emission
  order; an exception escaping `handle_classify` (possible at
  `classifier.py:137`, which has no `try`) is the `RunResult.crashed`
  outcome, distinguished from a normal return.
-/

namespace Picpocket

/-- Decidable equality on `Except`, so concrete runs of the fallible
operations can be checked by evaluation. -/
instance {ε α : Type} [DecidableEq ε] [DecidableEq α] : DecidableEq (Except ε α) :=
  fun x y =>
    match x, y with
    | .error a, .error b =>
        if h : a = b then .isTrue (congrArg Except.error h)
        else .isFalse (fun he => h (Except.error.inj he))
    | .error _, .ok _ => .isFalse (fun he => Except.noConfusion he)
    | .ok _, .error _ => .isFalse (fun he => Except.noConfusion he)
    | .ok a, .ok b =>
        if h : a = b then .isTrue (congrArg Except.ok h)
        else .isFalse (fun he => h (Except.ok.inj he))

/-- An embedding vector, one rational per component. -/
abbrev Vec := List ℚ

/-- Dot product of two vectors (`image_features @ text_features.T`, line 96). -/
def dot (u v : Vec) : ℚ := (List.zipWith (· * ·) u v).sum

/-- Squared L2 norm; zero exactly when the real `tensor.norm()` is zero. -/
def vecNorm2 (v : Vec) : ℚ := dot v v

/-- Lines 66 and 94: `x / x.norm(dim=-1, keepdim=True)`, componentwise
division by the norm with no guard for a zero norm (the real norm is
modelled by its square; see the header note). -/
def l2normalize (v : Vec) : Vec := v.map (fun x => x / vecNorm2 v)

/-- Lines 50-53: flatten the ordered `categories` mapping into
`(category, prompt)` pairs in declaration order. -/
def flattenPrompts : List (String × List String) → List (String × String)
  | [] => []
  | (c, ps) :: rest => ps.map (fun p => (c, p)) ++ flattenPrompts rest

/-- One step of `category_indices[cat].append(idx)` on a `defaultdict(list)`
kept as an insertion-ordered association list (line 70). -/
def addIndex (acc : List (String × List ℕ)) (cat : String) (idx : ℕ) :
    List (String × List ℕ) :=
  match acc with
  | [] => [(cat, [idx])]
  | (c, is) :: rest =>
      if c = cat then (c, is ++ [idx]) :: rest
      else (c, is) :: addIndex rest cat idx

/-- The loop `for idx, cat in enumerate(prompt_to_category)` (lines 69-70),
with `idx` the position of the next prompt row. -/
def buildIndicesGo (idx : ℕ) (acc : List (String × List ℕ)) :
    List String → List (String × List ℕ)
  | [] => acc
  | cat :: rest => buildIndicesGo (idx + 1) (addIndex acc cat idx) rest

/-- Lines 68-70: group row indices by category, preserving the order of
first occurrence (Python dicts iterate in insertion order). -/
def buildCategoryIndices (prompt_to_category : List String) :
    List (String × List ℕ) :=
  buildIndicesGo 0 [] prompt_to_category

/-- The value returned by `precompute_text_features` (line 72). -/
structure TextIndex where
  text_features : List Vec
  prompt_to_category : List String
  category_indices : List (String × List ℕ)
deriving DecidableEq, Repr

/-- Lines 45-72: flatten the prompts, embed them in one batched call,
normalize every row, and build the category→row-indices grouping.  The
`embed_text` oracle stands for the processor+`get_text_features` calls; an
exception it raises propagates (there is no `try` in this function). -/
def precompute_text_features (embed_text : List String → Except String (List Vec))
    (categories : List (String × List String)) : Except String TextIndex :=
  let flat := flattenPrompts categories
  let all_prompts := flat.map (·.2)
  let ptc := flat.map (·.1)
  match embed_text all_prompts with
  | .error e => .error e
  | .ok feats =>
      .ok { text_features := feats.map l2normalize
            prompt_to_category := ptc
            category_indices := buildCategoryIndices ptc }

/-- Lines 102-103: `cat_similarities.topk(k)` followed by `.mean()`:
the sum of the `k` largest values, divided by `k`. -/
def topkMean (sims : List ℚ) (k : ℕ) : ℚ :=
  ((sims.insertionSort (· ≥ ·)).take k).sum / (k : ℚ)

/-- Lines 98-103: for each category, gather the similarities at its own
row indices, clip `top_k` to the category's prompt count, and take the
top-k mean as that category's score. -/
def categoryScores (all_similarities : List ℚ)
    (category_indices : List (String × List ℕ)) (top_k : ℕ) :
    List (String × ℚ) :=
  category_indices.map (fun ci =>
    let cat_similarities := ci.2.map (fun i => all_similarities.getD i 0)
    let k := min top_k ci.2.length
    (ci.1, topkMean cat_similarities k))

/-- One comparison step of Python `max` with a key function: the current
best is replaced only when the new entry's key is strictly greater. -/
def pyMaxStep (best q : String × ℚ) : String × ℚ :=
  if best.2 < q.2 then q else best

/-- Line 105: `max(category_scores, key=category_scores.get)` over an
insertion-ordered dict: keep the first entry, replacing it only when a
later entry's score is strictly greater, so the earliest maximal entry
wins.  `none` is the `ValueError` of `max` on an empty dict. -/
def maxByScore : List (String × ℚ) → Option (String × ℚ)
  | [] => none
  | p :: rest => some (rest.foldl pyMaxStep p)

/-- The per-image result of `classify_image`: line 108 on success, the
`str(e)` of lines 80 and 110 on failure. -/
inductive Outcome where
  | success (category : String) (confidence : ℚ) (scores : List (String × ℚ))
  | failure (error : String)
deriving DecidableEq, Repr

/-- Whether a per-image outcome is a success (line 152: `if error:`). -/
def Outcome.isSuccess : Outcome → Bool
  | .success _ _ _ => true
  | .failure _ => false

/-- Lines 75-110: decode the image (failure caught at line 79), embed and
normalize it (failure caught at line 109), compute the similarity of the
image vector with every text row, score each category, and pick the best
one.  `I` abstracts the decoded pixel buffer. -/
def classify_image {I : Type} (decode_image : String → Except String I)
    (embed_image : I → Except String Vec) (image_path : String)
    (text_features : List Vec) (category_indices : List (String × List ℕ))
    (top_k : ℕ) : Outcome :=
  match decode_image image_path with
  | .error e => .failure e
  | .ok image =>
      match embed_image image with
      | .error e => .failure e
      | .ok feats =>
          let image_features := l2normalize feats
          let all_similarities := text_features.map (fun t => dot image_features t)
          let scores := categoryScores all_similarities category_indices top_k
          match maxByScore scores with
          | none => .failure "max() arg is an empty sequence"
          | some best => .success best.1 best.2 scores

/-- One entry of the `results` list (lines 155-160). -/
structure SuccessItem where
  path : String
  category : String
  confidence : ℚ
  scores : List (String × ℚ)
deriving DecidableEq, Repr

/-- One entry of the `errors` list (line 153). -/
structure FailureItem where
  path : String
  error : String
deriving DecidableEq, Repr

/-- One JSON line written by `send_response`: a `{"type": "status"}` note,
a `{"type": "progress"}` heartbeat, the final
`{"status": "success", "device", "results", "errors"}` document, a
`{"status": "error"}` document, or the `check` diagnostics (whose
version fields are abstracted away). -/
inductive Msg where
  | status (message : String)
  | progress (current total : ℕ)
  | result (device : String) (results : List SuccessItem) (errors : List FailureItem)
  | errorResp (error : String)
  | checkResp (device : String)
deriving DecidableEq, Repr

/-- How a handler finished: a normal Python `return`, or an exception that
escaped it (no surrounding `try`), killing the process with a traceback. -/
inductive RunResult where
  | normal
  | crashed (e : String)
deriving DecidableEq, Repr

/-- Lines 17-23: probe MPS, then CUDA, else CPU. -/
def get_device (mps_available cuda_available : Bool) : String :=
  if mps_available then "mps"
  else if cuda_available then "cuda"
  else "cpu"

/-- The JSON request document, with each field optional exactly as the
Python `dict.get` reads tolerate: `command` (line 212), `config.model`
(line 118), `config.categories` (line 119), `config.topK` (line 120) and
`images` (line 116). -/
structure Request where
  command : Option String
  model : Option String
  categories : Option (List (String × List String))
  topK : Option ℕ
  images : Option (List String)
deriving DecidableEq, Repr

/-- The loop of lines 145-160: for each image, first emit a progress
message (1-indexed position, emitted before the image is scored), then
classify it and append to `results` or `errors`. `pos` is the number of
images already processed. -/
def classifyLoop (classify1 : String → Outcome) (total pos : ℕ) :
    List String → List Msg × List SuccessItem × List FailureItem
  | [] => ([], [], [])
  | image_path :: rest =>
      let tail := classifyLoop classify1 total (pos + 1) rest
      match classify1 image_path with
      | .failure e =>
          (Msg.progress (pos + 1) total :: tail.1, tail.2.1,
            ⟨image_path, e⟩ :: tail.2.2)
      | .success c conf scores =>
          (Msg.progress (pos + 1) total :: tail.1,
            ⟨image_path, c, conf, scores⟩ :: tail.2.1, tail.2.2)

/-- Lines 113-167: resolve the request fields with their defaults, emit
the loading status, load the model (failure caught, lines 126-133: error
response and normal return), emit the precompute status, build the text
index (NOT inside a `try`: an `embed_text` failure crashes the handler),
then run the per-image loop and emit the final success response. -/
def handle_classify {I : Type} (load_model : Except String Unit)
    (embed_text : List String → Except String (List Vec))
    (decode_image : String → Except String I)
    (embed_image : I → Except String Vec)
    (mps_available cuda_available : Bool) (request : Request) :
    List Msg × RunResult :=
  let categories := request.categories.getD []
  let top_k := request.topK.getD 3
  let images := request.images.getD []
  let device := get_device mps_available cuda_available
  let loading := Msg.status ("Loading model on " ++ device ++ "...")
  match load_model with
  | .error e => ([loading, Msg.errorResp ("Failed to load model: " ++ e)], .normal)
  | .ok _ =>
      let precomputing := Msg.status "Precomputing text features..."
      match precompute_text_features embed_text categories with
      | .error e => ([loading, precomputing], .crashed e)
      | .ok tf =>
          let total := images.length
          let loop := classifyLoop
            (fun p => classify_image decode_image embed_image p
              tf.text_features tf.category_indices top_k) total 0 images
          (loading :: precomputing :: loop.1 ++
              [Msg.result device loop.2.1 loop.2.2], .normal)

/-- Lines 170-197: the `check` command reports device and dependency
diagnostics (version strings abstracted) and always succeeds. -/
def handle_check (mps_available cuda_available : Bool) : List Msg :=
  [Msg.checkResp (get_device mps_available cuda_available)]

/-- Lines 200-223: parse stdin as JSON (failure: one error response, exit
code 1), default a missing `command` to "classify", dispatch to the
matching handler (a crashed handler is an uncaught exception, also a
non-zero exit), and reject unknown commands with one error response and
exit code 1.  Returns the emitted messages and the process exit code. -/
def mainRun {I : Type} (load_model : Except String Unit)
    (embed_text : List String → Except String (List Vec))
    (decode_image : String → Except String I)
    (embed_image : I → Except String Vec)
    (mps_available cuda_available : Bool)
    (parsed : Except String Request) : List Msg × ℕ :=
  match parsed with
  | .error e => ([Msg.errorResp ("Invalid JSON input: " ++ e)], 1)
  | .ok request =>
      let command := request.command.getD "classify"
      if command = "classify" then
        let handled := handle_classify load_model embed_text decode_image
          embed_image mps_available cuda_available request
        (handled.1, match handled.2 with | .normal => 0 | .crashed _ => 1)
      else if command = "check" then
        (handle_check mps_available cuda_available, 0)
      else
        ([Msg.errorResp ("Unknown command: " ++ command)], 1)

/-! ### Helper lemmas about the batch loop -/

theorem classifyLoop_msgs (f : String → Outcome) (total : ℕ) :
    ∀ (paths : List String) (pos : ℕ),
      (classifyLoop f total pos paths).1 =
        (List.range paths.length).map (fun i => Msg.progress (pos + i + 1) total)
  | [], _ => rfl
  | p :: rest, pos => by
    cases hf : f p <;>
      simp [classifyLoop, hf, classifyLoop_msgs f total rest (pos + 1),
        List.range_succ_eq_map, List.map_map, Function.comp] <;>
      exact fun a _ => by omega

theorem classifyLoop_results (f : String → Outcome) (total : ℕ) :
    ∀ (paths : List String) (pos : ℕ),
      (classifyLoop f total pos paths).2.1 =
        paths.filterMap (fun p =>
          match f p with
          | .success c conf s => some ⟨p, c, conf, s⟩
          | .failure _ => none)
  | [], _ => rfl
  | p :: rest, pos => by
    cases hf : f p <;>
      simp [classifyLoop, hf, classifyLoop_results f total rest (pos + 1)]

theorem classifyLoop_errors (f : String → Outcome) (total : ℕ) :
    ∀ (paths : List String) (pos : ℕ),
      (classifyLoop f total pos paths).2.2 =
        paths.filterMap (fun p =>
          match f p with
          | .success _ _ _ => none
          | .failure e => some ⟨p, e⟩)
  | [], _ => rfl
  | p :: rest, pos => by
    cases hf : f p <;>
      simp [classifyLoop, hf, classifyLoop_errors f total rest (pos + 1)]

theorem results_map_path (f : String → Outcome) :
    ∀ paths : List String,
      (paths.filterMap (fun p =>
          match f p with
          | .success c conf s => some (⟨p, c, conf, s⟩ : SuccessItem)
          | .failure _ => none)).map SuccessItem.path =
        paths.filter (fun p => (f p).isSuccess)
  | [] => rfl
  | p :: rest => by
    cases hf : f p <;>
      simp [hf, Outcome.isSuccess, results_map_path f rest]

theorem errors_map_path (f : String → Outcome) :
    ∀ paths : List String,
      (paths.filterMap (fun p =>
          match f p with
          | .success _ _ _ => none
          | .failure e => some (⟨p, e⟩ : FailureItem))).map FailureItem.path =
        paths.filter (fun p => !(f p).isSuccess)
  | [] => rfl
  | p :: rest => by
    cases hf : f p <;>
      simp [hf, Outcome.isSuccess, errors_map_path f rest]

/-- The shape of a `handle_classify` run whose model load and text
embedding both succeed: the two status lines, one progress message per
image, and a final success response built from the loop's partition. -/
theorem handle_classify_shape {I : Type} (load_model : Except String Unit)
    (embed_text : List String → Except String (List Vec))
    (decode_image : String → Except String I)
    (embed_image : I → Except String Vec)
    (mps_available cuda_available : Bool) (request : Request) (tf : TextIndex)
    (hload : load_model = .ok ())
    (hpre : precompute_text_features embed_text (request.categories.getD []) = .ok tf) :
    handle_classify load_model embed_text decode_image embed_image
        mps_available cuda_available request =
      (Msg.status ("Loading model on " ++ get_device mps_available cuda_available ++ "...") ::
        Msg.status "Precomputing text features..." ::
        ((List.range (request.images.getD []).length).map
          (fun i => Msg.progress (i + 1) (request.images.getD []).length)) ++
        [Msg.result (get_device mps_available cuda_available)
          ((request.images.getD []).filterMap (fun p =>
            match classify_image decode_image embed_image p tf.text_features
                tf.category_indices (request.topK.getD 3) with
            | .success c conf s => some ⟨p, c, conf, s⟩
            | .failure _ => none))
          ((request.images.getD []).filterMap (fun p =>
            match classify_image decode_image embed_image p tf.text_features
                tf.category_indices (request.topK.getD 3) with
            | .success _ _ _ => none
            | .failure e => some ⟨p, e⟩))], .normal) := by
  simp only [handle_classify, hload, hpre]
  simp [classifyLoop_msgs, classifyLoop_results, classifyLoop_errors]

theorem filterMap_partition_length (f : String → Outcome) :
    ∀ paths : List String,
      (paths.filterMap (fun p =>
          match f p with
          | .success c conf s => some (⟨p, c, conf, s⟩ : SuccessItem)
          | .failure _ => none)).length +
        (paths.filterMap (fun p =>
          match f p with
          | .success _ _ _ => none
          | .failure e => some (⟨p, e⟩ : FailureItem))).length = paths.length
  | [] => rfl
  | p :: rest => by
    have ih := filterMap_partition_length f rest
    cases hf : f p <;> simp [hf] <;> omega

theorem getLast_concat_eq {α : Type} : ∀ (l : List α) (x : α),
    (l ++ [x]).getLast? = some x
  | [], _ => rfl
  | _ :: [], _ => rfl
  | _ :: b :: t, x => by
    rw [List.cons_append]
    show (b :: t ++ [x]).getLast? = some x
    exact getLast_concat_eq (b :: t) x

theorem getLast_cons_cons_append (a b : Msg) (l : List Msg) (x : Msg) :
    ((a :: b :: l ++ [x]) : List Msg).getLast? = some x :=
  getLast_concat_eq (a :: b :: l) x

/-! ### The category grouping preserves declaration order -/

theorem addIndex_keys_mem (acc : List (String × List ℕ)) (cat : String) (idx : ℕ)
    (h : cat ∈ acc.map Prod.fst) :
    (addIndex acc cat idx).map Prod.fst = acc.map Prod.fst := by
  induction acc with
  | nil => simp at h
  | cons p rest ih =>
    obtain ⟨c, is⟩ := p
    by_cases hc : c = cat
    · simp [addIndex, hc]
    · have hm : cat ∈ rest.map Prod.fst := by
        simpa [hc, Ne.symm hc] using h
      simp [addIndex, hc, ih hm]

theorem addIndex_keys_new (acc : List (String × List ℕ)) (cat : String) (idx : ℕ)
    (h : cat ∉ acc.map Prod.fst) :
    (addIndex acc cat idx).map Prod.fst = acc.map Prod.fst ++ [cat] := by
  induction acc with
  | nil => simp [addIndex]
  | cons p rest ih =>
    obtain ⟨c, is⟩ := p
    have hc : c ≠ cat := by
      intro hce
      exact h (by simp [hce])
    have hm : cat ∉ rest.map Prod.fst := fun hmem => h (by simp [hmem])
    simp [addIndex, hc, ih hm]

theorem buildIndicesGo_append (l₁ l₂ : List String) :
    ∀ (idx : ℕ) (acc : List (String × List ℕ)),
      buildIndicesGo idx acc (l₁ ++ l₂) =
        buildIndicesGo (idx + l₁.length) (buildIndicesGo idx acc l₁) l₂ := by
  induction l₁ with
  | nil => intro idx acc; simp [buildIndicesGo]
  | cons a t ih =>
    intro idx acc
    have harith : idx + 1 + t.length = idx + (t.length + 1) := by omega
    simp only [List.cons_append, buildIndicesGo, List.append_eq, ih,
      List.length_cons, harith]

theorem buildIndicesGo_replicate_mem (c : String) :
    ∀ (n idx : ℕ) (acc : List (String × List ℕ)), c ∈ acc.map Prod.fst →
      (buildIndicesGo idx acc (List.replicate n c)).map Prod.fst = acc.map Prod.fst
  | 0, _, _, _ => rfl
  | n + 1, idx, acc, h => by
    rw [List.replicate_succ]
    show (buildIndicesGo (idx + 1) (addIndex acc c idx) (List.replicate n c)).map
      Prod.fst = acc.map Prod.fst
    rw [buildIndicesGo_replicate_mem c n (idx + 1) (addIndex acc c idx)
      (by rw [addIndex_keys_mem acc c idx h]; exact h)]
    exact addIndex_keys_mem acc c idx h

theorem buildIndicesGo_flatten_keys :
    ∀ (cats : List (String × List String)) (idx : ℕ) (acc : List (String × List ℕ)),
      (cats.map Prod.fst).Nodup →
      (∀ ci ∈ cats, ci.1 ∉ acc.map Prod.fst) →
      (buildIndicesGo idx acc ((flattenPrompts cats).map Prod.fst)).map Prod.fst =
        acc.map Prod.fst ++ (cats.filter (fun ci => !ci.2.isEmpty)).map Prod.fst
  | [], idx, acc, _, _ => by simp [flattenPrompts, buildIndicesGo]
  | (c, ps) :: rest, idx, acc, hnd, hfresh => by
    have hmapfst : (flattenPrompts ((c, ps) :: rest)).map Prod.fst =
        List.replicate ps.length c ++ (flattenPrompts rest).map Prod.fst := by
      simp [flattenPrompts, List.map_map, Function.comp, List.map_const]
    have hndrest : (rest.map Prod.fst).Nodup := (List.nodup_cons.mp hnd).2
    have hcnotin : c ∉ rest.map Prod.fst := (List.nodup_cons.mp hnd).1
    rw [hmapfst, buildIndicesGo_append]
    cases ps with
    | nil =>
      have hrest := buildIndicesGo_flatten_keys rest (idx + 0) acc hndrest
        (fun ci hci => hfresh ci (List.mem_cons_of_mem _ hci))
      simpa [buildIndicesGo, List.filter] using hrest
    | cons p pt =>
      have hblock : (buildIndicesGo idx acc (List.replicate (p :: pt).length c)).map
          Prod.fst = acc.map Prod.fst ++ [c] := by
        rw [List.length_cons, List.replicate_succ]
        show (buildIndicesGo (idx + 1) (addIndex acc c idx)
          (List.replicate pt.length c)).map Prod.fst = acc.map Prod.fst ++ [c]
        have hnew := addIndex_keys_new acc c idx (hfresh (c, p :: pt) (by simp))
        rw [buildIndicesGo_replicate_mem c pt.length (idx + 1) (addIndex acc c idx)
          (by rw [hnew]; simp), hnew]
      have hrest := buildIndicesGo_flatten_keys rest (idx + (p :: pt).length)
        (buildIndicesGo idx acc (List.replicate (p :: pt).length c)) hndrest
        (fun ci hci => by
          rw [hblock]
          simp only [List.mem_append, List.mem_singleton]
          rintro (hin | heq)
          · exact hfresh ci (List.mem_cons_of_mem _ hci) hin
          · exact hcnotin (heq ▸ List.mem_map_of_mem Prod.fst hci))
      simp only [List.length_replicate]
      rw [hrest, hblock]
      simp [List.filter_cons]

/-- The keys of the category grouping are exactly the declared category
names with a nonempty prompt list, in declaration order. -/
theorem buildCategoryIndices_keys (cats : List (String × List String))
    (hnd : (cats.map Prod.fst).Nodup) :
    (buildCategoryIndices ((flattenPrompts cats).map Prod.fst)).map Prod.fst =
      (cats.filter (fun ci => !ci.2.isEmpty)).map Prod.fst := by
  simpa using buildIndicesGo_flatten_keys cats 0 [] hnd (by simp)

/-- A concrete index build used by several witnesses: one category `"a"`
with one prompt, every prompt embedded as `[1, 0]` (already unit). -/
theorem precompute_single_ok :
    precompute_text_features (fun ps => Except.ok (ps.map fun _ => [1, 0]))
      [("a", ["pa"])] = Except.ok ⟨[[1, 0]], ["a"], [("a", [0])]⟩ := by
  simp [precompute_text_features, flattenPrompts, l2normalize, vecNorm2, dot,
    buildCategoryIndices, buildIndicesGo, addIndex]

/-! ### Claims -/

/-- C7: a classify request with a loaded model and a built index emits,
after the two status lines, exactly one 1-indexed progress message per
image in input order, each before that image's outcome is produced, and
then the final success response; an empty image list emits zero progress
messages and succeeds with empty results and errors. -/
theorem claim_C7_progress_protocol {I : Type} (load_model : Except String Unit)
    (embed_text : List String → Except String (List Vec))
    (decode_image : String → Except String I)
    (embed_image : I → Except String Vec)
    (mps_available cuda_available : Bool) (request : Request) (tf : TextIndex)
    (hload : load_model = .ok ())
    (hpre : precompute_text_features embed_text (request.categories.getD []) = .ok tf) :
    ∃ results errors,
      handle_classify load_model embed_text decode_image embed_image
          mps_available cuda_available request =
        (Msg.status ("Loading model on " ++ get_device mps_available cuda_available ++ "...") ::
          Msg.status "Precomputing text features..." ::
          ((List.range (request.images.getD []).length).map
            (fun i => Msg.progress (i + 1) (request.images.getD []).length)) ++
          [Msg.result (get_device mps_available cuda_available) results errors],
          .normal) ∧
      (request.images.getD [] = [] → results = [] ∧ errors = []) := by
  refine ⟨_, _, handle_classify_shape load_model embed_text decode_image embed_image
    mps_available cuda_available request tf hload hpre, fun h => ?_⟩
  simp [h]

/-- Witness for C7 at a concrete request with one image. -/
theorem claim_C7_progress_protocol_witness :
    ∃ results errors,
      handle_classify (I := Unit) (Except.ok ())
          (fun ps => .ok (ps.map fun _ => [1, 0]))
          (fun _ => .ok ()) (fun _ => .ok [1, 0]) false false
          ⟨none, none, some [("a", ["pa"])], some 1, some ["good.png"]⟩ =
        (Msg.status ("Loading model on " ++ get_device false false ++ "...") ::
          Msg.status "Precomputing text features..." ::
          ((List.range (1 : ℕ)).map (fun i => Msg.progress (i + 1) 1)) ++
          [Msg.result (get_device false false) results errors], .normal) ∧
      (([ "good.png" ] : List String) = [] → results = [] ∧ errors = []) :=
  claim_C7_progress_protocol (I := Unit) (Except.ok ())
    (fun ps => .ok (ps.map fun _ => [1, 0]))
    (fun _ => .ok ()) (fun _ => .ok [1, 0]) false false
    ⟨none, none, some [("a", ["pa"])], some 1, some ["good.png"]⟩
    ⟨[[1, 0]], ["a"], [("a", [0])]⟩ rfl precompute_single_ok

/-- C6: the final response of a classify run partitions the input paths:
results carry exactly the successfully classified paths in input order,
errors exactly the failed paths in input order, and every input path lands
in exactly one of the two lists. -/
theorem claim_C6_partition_in_input_order {I : Type} (load_model : Except String Unit)
    (embed_text : List String → Except String (List Vec))
    (decode_image : String → Except String I)
    (embed_image : I → Except String Vec)
    (mps_available cuda_available : Bool) (request : Request) (tf : TextIndex)
    (hload : load_model = .ok ())
    (hpre : precompute_text_features embed_text (request.categories.getD []) = .ok tf) :
    ∃ msgs results errors,
      handle_classify load_model embed_text decode_image embed_image
          mps_available cuda_available request = (msgs, .normal) ∧
      msgs.getLast? = some (Msg.result (get_device mps_available cuda_available)
        results errors) ∧
      results.map SuccessItem.path =
        (request.images.getD []).filter (fun p =>
          (classify_image decode_image embed_image p tf.text_features
            tf.category_indices (request.topK.getD 3)).isSuccess) ∧
      errors.map FailureItem.path =
        (request.images.getD []).filter (fun p =>
          !(classify_image decode_image embed_image p tf.text_features
            tf.category_indices (request.topK.getD 3)).isSuccess) ∧
      ∀ p ∈ request.images.getD [],
        (p ∈ results.map SuccessItem.path ∧ p ∉ errors.map FailureItem.path) ∨
        (p ∉ results.map SuccessItem.path ∧ p ∈ errors.map FailureItem.path) := by
  refine ⟨_, _, _, handle_classify_shape load_model embed_text decode_image embed_image
    mps_available cuda_available request tf hload hpre,
    getLast_cons_cons_append _ _ _ _, results_map_path _ _, errors_map_path _ _, ?_⟩
  intro p hp
  rw [results_map_path, errors_map_path]
  by_cases hs : (classify_image decode_image embed_image p tf.text_features
      tf.category_indices (request.topK.getD 3)).isSuccess
  · exact Or.inl ⟨List.mem_filter.mpr ⟨hp, hs⟩,
      fun hmem => by simp [List.mem_filter, hs] at hmem⟩
  · exact Or.inr ⟨fun hmem => by simp [List.mem_filter, hs] at hmem,
      List.mem_filter.mpr ⟨hp, by simp [hs]⟩⟩

/-- Witness for C6 at a concrete request with one good and one bad image. -/
theorem claim_C6_partition_in_input_order_witness :
    ∃ msgs results errors,
      handle_classify (I := Unit) (Except.ok ())
          (fun ps => .ok (ps.map fun _ => [1, 0]))
          (fun p => if p = "bad.png" then .error "cannot identify image file" else .ok ())
          (fun _ => .ok [1, 0]) false false
          ⟨none, none, some [("a", ["pa"])], some 1, some ["good.png", "bad.png"]⟩ =
        (msgs, .normal) ∧
      msgs.getLast? = some (Msg.result (get_device false false) results errors) ∧
      results.map SuccessItem.path =
        (["good.png", "bad.png"].filter (fun p =>
          (classify_image
            (fun p => if p = "bad.png" then .error "cannot identify image file" else .ok ())
            (fun _ => .ok [1, 0]) p [[1, 0]] [("a", [0])] 1).isSuccess)) ∧
      errors.map FailureItem.path =
        (["good.png", "bad.png"].filter (fun p =>
          !(classify_image
            (fun p => if p = "bad.png" then .error "cannot identify image file" else .ok ())
            (fun _ => .ok [1, 0]) p [[1, 0]] [("a", [0])] 1).isSuccess)) ∧
      ∀ p ∈ (["good.png", "bad.png"] : List String),
        (p ∈ results.map SuccessItem.path ∧ p ∉ errors.map FailureItem.path) ∨
        (p ∉ results.map SuccessItem.path ∧ p ∈ errors.map FailureItem.path) :=
  claim_C6_partition_in_input_order (I := Unit) (Except.ok ())
    (fun ps => .ok (ps.map fun _ => [1, 0]))
    (fun p => if p = "bad.png" then .error "cannot identify image file" else .ok ())
    (fun _ => .ok [1, 0]) false false
    ⟨none, none, some [("a", ["pa"])], some 1, some ["good.png", "bad.png"]⟩
    ⟨[[1, 0]], ["a"], [("a", [0])]⟩ rfl precompute_single_ok

/-- C4: a per-image failure (decode or inference) is recorded in the
errors list with that image's path and the error message, the loop keeps
going (all input images are accounted for in the final lists), and the
run still ends normally with a success response instead of a fatal
request-level error. -/
theorem claim_C4_per_image_failure_isolated {I : Type} (load_model : Except String Unit)
    (embed_text : List String → Except String (List Vec))
    (decode_image : String → Except String I)
    (embed_image : I → Except String Vec)
    (mps_available cuda_available : Bool) (request : Request) (tf : TextIndex)
    (path e : String)
    (hload : load_model = .ok ())
    (hpre : precompute_text_features embed_text (request.categories.getD []) = .ok tf)
    (hmem : path ∈ request.images.getD [])
    (hfail : classify_image decode_image embed_image path tf.text_features
      tf.category_indices (request.topK.getD 3) = .failure e) :
    ∃ msgs results errors,
      handle_classify load_model embed_text decode_image embed_image
          mps_available cuda_available request = (msgs, .normal) ∧
      msgs.getLast? = some (Msg.result (get_device mps_available cuda_available)
        results errors) ∧
      (⟨path, e⟩ : FailureItem) ∈ errors ∧
      results.length + errors.length = (request.images.getD []).length := by
  refine ⟨_, _, _, handle_classify_shape load_model embed_text decode_image embed_image
    mps_available cuda_available request tf hload hpre,
    getLast_cons_cons_append _ _ _ _, ?_, filterMap_partition_length _ _⟩
  exact List.mem_filterMap.mpr ⟨path, hmem, by rw [hfail]⟩

/-- Witness for C4: a request whose second image fails to decode. -/
theorem claim_C4_per_image_failure_isolated_witness :
    ∃ msgs results errors,
      handle_classify (I := Unit) (Except.ok ())
          (fun ps => .ok (ps.map fun _ => [1, 0]))
          (fun p => if p = "bad.png" then .error "cannot identify image file" else .ok ())
          (fun _ => .ok [1, 0]) false false
          ⟨none, none, some [("a", ["pa"])], some 1, some ["good.png", "bad.png"]⟩ =
        (msgs, .normal) ∧
      msgs.getLast? = some (Msg.result (get_device false false) results errors) ∧
      (⟨"bad.png", "cannot identify image file"⟩ : FailureItem) ∈ errors ∧
      results.length + errors.length = (["good.png", "bad.png"] : List String).length :=
  claim_C4_per_image_failure_isolated (I := Unit) (Except.ok ())
    (fun ps => .ok (ps.map fun _ => [1, 0]))
    (fun p => if p = "bad.png" then .error "cannot identify image file" else .ok ())
    (fun _ => .ok [1, 0]) false false
    ⟨none, none, some [("a", ["pa"])], some 1, some ["good.png", "bad.png"]⟩
    ⟨[[1, 0]], ["a"], [("a", [0])]⟩ "bad.png" "cannot identify image file"
    rfl precompute_single_ok (by decide) (by decide)

/-- C8: malformed input JSON, or a well-formed request whose `command` is
neither "classify" nor "check", yields exactly one fatal error response,
exit code 1, no status or progress messages, and an answer that does not
depend on the model oracles at all (no model work is performed). -/
theorem claim_C8_fatal_bad_input {I J : Type}
    (load_model load_model2 : Except String Unit)
    (embed_text embed_text2 : List String → Except String (List Vec))
    (decode_image : String → Except String I)
    (decode_image2 : String → Except String J)
    (embed_image : I → Except String Vec)
    (embed_image2 : J → Except String Vec)
    (mps_available cuda_available mps2 cuda2 : Bool)
    (parsed : Except String Request)
    (hbad : (∃ e, parsed = .error e) ∨
      (∃ request c, parsed = .ok request ∧ request.command = some c ∧
        c ≠ "classify" ∧ c ≠ "check")) :
    ∃ e, mainRun load_model embed_text decode_image embed_image
        mps_available cuda_available parsed = ([Msg.errorResp e], 1) ∧
      mainRun load_model2 embed_text2 decode_image2 embed_image2
        mps2 cuda2 parsed = ([Msg.errorResp e], 1) := by
  rcases hbad with ⟨e, he⟩ | ⟨request, c, hp, hc, hcl, hck⟩
  · exact ⟨"Invalid JSON input: " ++ e, by simp [mainRun, he], by simp [mainRun, he]⟩
  · refine ⟨"Unknown command: " ++ c, ?_, ?_⟩ <;>
      simp [mainRun, hp, hc, hcl, hck]

/-- Witness for C8 at an unknown command, under two different oracle sets. -/
theorem claim_C8_fatal_bad_input_witness :
    ∃ e, mainRun (I := Unit) (Except.ok ())
        (fun ps => .ok (ps.map fun _ => [1, 0]))
        (fun _ => .ok ()) (fun _ => .ok [1, 0]) false false
        (.ok ⟨some "frobnicate", none, none, none, none⟩) = ([Msg.errorResp e], 1) ∧
      mainRun (I := Unit) (Except.error "load failed")
        (fun _ => .error "embed failed")
        (fun _ => .error "decode failed") (fun _ => .error "embed failed") true true
        (.ok ⟨some "frobnicate", none, none, none, none⟩) = ([Msg.errorResp e], 1) :=
  claim_C8_fatal_bad_input (Except.ok ()) (Except.error "load failed")
    (fun ps => .ok (ps.map fun _ => [1, 0])) (fun _ => .error "embed failed")
    (fun _ => .ok ()) (fun _ => .error "decode failed")
    (fun _ => .ok [1, 0]) (fun _ => .error "embed failed")
    false false true true (.ok ⟨some "frobnicate", none, none, none, none⟩)
    (Or.inr ⟨⟨some "frobnicate", none, none, none, none⟩, "frobnicate",
      rfl, rfl, by decide, by decide⟩)

/-- C10: a well-formed request with no `command` field at all is handled
exactly like one with `command = "classify"`: the worker runs the classify
handler on it (line 212 defaults the missing field to "classify"). -/
theorem claim_C10_missing_command_defaults_to_classify {I : Type}
    (load_model : Except String Unit)
    (embed_text : List String → Except String (List Vec))
    (decode_image : String → Except String I)
    (embed_image : I → Except String Vec)
    (mps_available cuda_available : Bool) (request : Request)
    (hcmd : request.command = none) :
    mainRun load_model embed_text decode_image embed_image
        mps_available cuda_available (.ok request) =
      (let handled := handle_classify load_model embed_text decode_image
        embed_image mps_available cuda_available request
       (handled.1, match handled.2 with | .normal => 0 | .crashed _ => 1)) ∧
    mainRun load_model embed_text decode_image embed_image
        mps_available cuda_available (.ok request) =
      mainRun load_model embed_text decode_image embed_image
        mps_available cuda_available (.ok { request with command := some "classify" }) := by
  obtain ⟨cmd, mdl, cats, tk, imgs⟩ := request
  simp only [Request.command] at hcmd
  subst hcmd
  exact ⟨by simp [mainRun], by simp [mainRun, handle_classify]⟩

/-- Witness for C10 at a concrete request lacking the command field. -/
theorem claim_C10_missing_command_defaults_to_classify_witness :
    mainRun (I := Unit) (Except.ok ()) (fun ps => .ok (ps.map fun _ => [1, 0]))
        (fun _ => .ok ()) (fun _ => .ok [1, 0]) false false
        (.ok ⟨none, none, some [("a", ["pa"])], some 1, some ["good.png"]⟩) =
      (let handled := handle_classify (I := Unit) (Except.ok ())
        (fun ps => .ok (ps.map fun _ => [1, 0])) (fun _ => .ok ())
        (fun _ => .ok [1, 0]) false false
        ⟨none, none, some [("a", ["pa"])], some 1, some ["good.png"]⟩
       (handled.1, match handled.2 with | .normal => 0 | .crashed _ => 1)) ∧
    mainRun (I := Unit) (Except.ok ()) (fun ps => .ok (ps.map fun _ => [1, 0]))
        (fun _ => .ok ()) (fun _ => .ok [1, 0]) false false
        (.ok ⟨none, none, some [("a", ["pa"])], some 1, some ["good.png"]⟩) =
      mainRun (I := Unit) (Except.ok ()) (fun ps => .ok (ps.map fun _ => [1, 0]))
        (fun _ => .ok ()) (fun _ => .ok [1, 0]) false false
        (.ok ⟨some "classify", none, some [("a", ["pa"])], some 1, some ["good.png"]⟩) :=
  claim_C10_missing_command_defaults_to_classify (Except.ok ())
    (fun ps => .ok (ps.map fun _ => [1, 0])) (fun _ => .ok ())
    (fun _ => .ok [1, 0]) false false
    ⟨none, none, some [("a", ["pa"])], some 1, some ["good.png"]⟩ rfl

/-- C5 counterexample: with a failing batched text-embedding call, the
handler stops with an uncaught exception after the two status lines; in
particular NO error response message (`Msg.errorResp`) is ever emitted,
refuting the claim that the request aborts "with an error response
message". -/
theorem claim_C5_counterexample :
    handle_classify (I := Unit) (Except.ok ())
        (fun _ => Except.error "boom") (fun _ => Except.ok ())
        (fun _ => Except.ok [1, 0]) false false
        ⟨some "classify", none, some [("a", ["p"])], some 1, some ["img1.png"]⟩ =
      ([Msg.status "Loading model on cpu...",
        Msg.status "Precomputing text features..."], .crashed "boom") := by
  decide

/-- C5 amended: when the batched text-embedding call fails during index
construction, the whole request aborts immediately — no partial index is
used, no progress messages and no per-image results are emitted, and the
process exits non-zero — but via an uncaught exception, so no error
response message is written either. -/
theorem claim_C5_amended_fatal_embed_crash {I : Type}
    (load_model : Except String Unit)
    (embed_text : List String → Except String (List Vec))
    (decode_image : String → Except String I)
    (embed_image : I → Except String Vec)
    (mps_available cuda_available : Bool) (request : Request) (e : String)
    (hload : load_model = .ok ())
    (hcmd : request.command = some "classify")
    (hembed : embed_text ((flattenPrompts (request.categories.getD [])).map (·.2)) =
      .error e) :
    handle_classify load_model embed_text decode_image embed_image
        mps_available cuda_available request =
      ([Msg.status ("Loading model on " ++ get_device mps_available cuda_available ++ "..."),
        Msg.status "Precomputing text features..."], .crashed e) ∧
    mainRun load_model embed_text decode_image embed_image
        mps_available cuda_available (.ok request) =
      ([Msg.status ("Loading model on " ++ get_device mps_available cuda_available ++ "..."),
        Msg.status "Precomputing text features..."], 1) := by
  have h : handle_classify load_model embed_text decode_image embed_image
      mps_available cuda_available request =
      ([Msg.status ("Loading model on " ++ get_device mps_available cuda_available ++ "..."),
        Msg.status "Precomputing text features..."], .crashed e) := by
    simp only [handle_classify, hload, precompute_text_features, hembed]
  exact ⟨h, by simp [mainRun, hcmd, h]⟩

/-- Witness for the amended C5 at a concrete failing embed call. -/
theorem claim_C5_amended_fatal_embed_crash_witness :
    handle_classify (I := Unit) (Except.ok ())
        (fun _ => Except.error "CUDA out of memory") (fun _ => Except.ok ())
        (fun _ => Except.ok [1, 0]) false false
        ⟨some "classify", none, some [("a", ["p"])], some 1, some ["img1.png"]⟩ =
      ([Msg.status ("Loading model on " ++ get_device false false ++ "..."),
        Msg.status "Precomputing text features..."], .crashed "CUDA out of memory") ∧
    mainRun (I := Unit) (Except.ok ())
        (fun _ => Except.error "CUDA out of memory") (fun _ => Except.ok ())
        (fun _ => Except.ok [1, 0]) false false
        (.ok ⟨some "classify", none, some [("a", ["p"])], some 1, some ["img1.png"]⟩) =
      ([Msg.status ("Loading model on " ++ get_device false false ++ "..."),
        Msg.status "Precomputing text features..."], 1) :=
  claim_C5_amended_fatal_embed_crash (Except.ok ())
    (fun _ => Except.error "CUDA out of memory") (fun _ => Except.ok ())
    (fun _ => Except.ok [1, 0]) false false
    ⟨some "classify", none, some [("a", ["p"])], some 1, some ["img1.png"]⟩
    "CUDA out of memory" rfl rfl rfl

/-- C3: the code does NOT guard zero-norm embeddings: building an index
from a zero text embedding succeeds (returning the degenerate features the
division by a zero norm produces, instead of failing with a
DegenerateEmbeddingError), and classifying an image whose embedding is the
zero vector likewise returns a normal success outcome. -/
theorem claim_C3_zero_norm_unguarded :
    precompute_text_features (fun ps => Except.ok (ps.map fun _ => [0, 0]))
        [("c", ["p"])] =
      Except.ok ⟨[[0, 0]], ["c"], [("c", [0])]⟩ ∧
    classify_image (I := Unit) (fun _ => Except.ok ())
        (fun _ => Except.ok [0, 0]) "img.png" [[1, 0]] [("c", [0])] 3 =
      Outcome.success "c" 0 [("c", 0)] := by
  constructor
  · simp [precompute_text_features, flattenPrompts, l2normalize, vecNorm2, dot,
      buildCategoryIndices, buildIndicesGo, addIndex]
  · simp [classify_image, l2normalize, vecNorm2, dot, categoryScores, topkMean,
      maxByScore, pyMaxStep, List.insertionSort, List.orderedInsert]

/-- C9 counterexample: a classify request containing the empty-prompt
category `("b", [])` is NOT rejected with a request-level error: the
worker classifies the image and returns a normal success response (the
empty category simply vanishes from the score mapping), refuting the
claim that such a request fails validation before any classification. -/
theorem claim_C9_counterexample :
    handle_classify (I := Unit) (Except.ok ())
        (fun ps => Except.ok (ps.map fun _ => [1, 0]))
        (fun _ => Except.ok ()) (fun _ => Except.ok [1, 0]) false false
        ⟨none, none, some [("a", ["p1"]), ("b", [])], some 1, some ["img1"]⟩ =
      ([Msg.status "Loading model on cpu...",
        Msg.status "Precomputing text features...",
        Msg.progress 1 1,
        Msg.result "cpu" [⟨"img1", "a", 1, [("a", 1)]⟩] []], .normal) := by
  simp [handle_classify, precompute_text_features, flattenPrompts, l2normalize,
    vecNorm2, dot, buildCategoryIndices, buildIndicesGo, addIndex, classifyLoop,
    classify_image, categoryScores, topkMean, maxByScore, pyMaxStep, get_device,
    List.insertionSort, List.orderedInsert]

/-- C9 amended: an empty-prompt category is not rejected anywhere: the
request proceeds to a normal success response, and the empty category is
silently dropped — it contributes no rows to the index and is absent from
the category grouping (hence from every per-image score mapping). -/
theorem claim_C9_amended_empty_category_dropped {I : Type}
    (load_model : Except String Unit)
    (embed_text : List String → Except String (List Vec))
    (decode_image : String → Except String I)
    (embed_image : I → Except String Vec)
    (mps_available cuda_available : Bool) (request : Request)
    (cats : List (String × List String)) (c : String) (tf : TextIndex)
    (hcats : request.categories = some cats)
    (hnd : (cats.map Prod.fst).Nodup)
    (hmem : (c, ([] : List String)) ∈ cats)
    (hload : load_model = .ok ())
    (hpre : precompute_text_features embed_text cats = .ok tf) :
    (∃ msgs results errors,
      handle_classify load_model embed_text decode_image embed_image
          mps_available cuda_available request = (msgs, .normal) ∧
      msgs.getLast? = some (Msg.result (get_device mps_available cuda_available)
        results errors)) ∧
    tf.category_indices.map Prod.fst =
      (cats.filter (fun ci => !ci.2.isEmpty)).map Prod.fst ∧
    c ∉ tf.category_indices.map Prod.fst := by
  have hpre2 : precompute_text_features embed_text (request.categories.getD []) =
      .ok tf := by rw [hcats]; exact hpre
  refine ⟨⟨_, _, _, handle_classify_shape load_model embed_text decode_image
    embed_image mps_available cuda_available request tf hload hpre2,
    getLast_cons_cons_append _ _ _ _⟩, ?_⟩
  have hkeys : tf.category_indices.map Prod.fst =
      (cats.filter (fun ci => !ci.2.isEmpty)).map Prod.fst := by
    simp only [precompute_text_features] at hpre
    rcases hembed : embed_text ((flattenPrompts cats).map (·.2)) with e | feats
    · rw [hembed] at hpre
      exact absurd hpre (by simp)
    · rw [hembed] at hpre
      have htf := Except.ok.inj hpre
      rw [← htf]
      exact buildCategoryIndices_keys cats hnd
  refine ⟨hkeys, ?_⟩
  rw [hkeys]
  intro hcmem
  obtain ⟨ci, hcif, hfst⟩ := List.mem_map.mp hcmem
  obtain ⟨hcimem, hP⟩ := List.mem_filter.mp hcif
  have hci_eq : ci = (c, []) :=
    List.inj_on_of_nodup_map hnd hcimem hmem (by simpa using hfst)
  rw [hci_eq] at hP
  simp at hP

/-- Witness for the amended C9 at a concrete request with an empty
category `"b"`. -/
theorem claim_C9_amended_empty_category_dropped_witness :
    (∃ msgs results errors,
      handle_classify (I := Unit) (Except.ok ())
          (fun ps => Except.ok (ps.map fun _ => [1, 0]))
          (fun _ => Except.ok ()) (fun _ => Except.ok [1, 0]) false false
          ⟨none, none, some [("a", ["p1"]), ("b", [])], some 1, some ["img1"]⟩ =
        (msgs, .normal) ∧
      msgs.getLast? = some (Msg.result (get_device false false) results errors)) ∧
    (⟨[[1, 0]], ["a"], [("a", [0])]⟩ : TextIndex).category_indices.map Prod.fst =
      ([("a", ["p1"]), ("b", [])].filter
        (fun ci => !ci.2.isEmpty)).map Prod.fst ∧
    "b" ∉ (⟨[[1, 0]], ["a"], [("a", [0])]⟩ : TextIndex).category_indices.map Prod.fst :=
  claim_C9_amended_empty_category_dropped (Except.ok ())
    (fun ps => Except.ok (ps.map fun _ => [1, 0]))
    (fun _ => Except.ok ()) (fun _ => Except.ok [1, 0]) false false
    ⟨none, none, some [("a", ["p1"]), ("b", [])], some 1, some ["img1"]⟩
    [("a", ["p1"]), ("b", [])] "b" ⟨[[1, 0]], ["a"], [("a", [0])]⟩
    rfl (by decide) (by decide) rfl
    (by simp [precompute_text_features, flattenPrompts, l2normalize, vecNorm2,
      dot, buildCategoryIndices, buildIndicesGo, addIndex])

/-- `topkMean l k` with `k ≤ l.length` really is the arithmetic mean of a
selection of `k` values from `l` that dominate all the unselected ones. -/
theorem topk_select (l : List ℚ) (k : ℕ) (hk : k ≤ l.length) :
    ∃ sel : List ℚ, sel.length = k ∧
      (↑sel : Multiset ℚ) ≤ (↑l : Multiset ℚ) ∧
      (∀ x ∈ sel, ∀ y ∈ ((l : Multiset ℚ) - (sel : Multiset ℚ)), y ≤ x) ∧
      topkMean l k = sel.sum / (k : ℚ) := by
  refine ⟨(l.insertionSort (· ≥ ·)).take k, ?_, ?_, ?_, rfl⟩
  · rw [List.length_take, List.length_insertionSort]
    omega
  · exact Multiset.coe_le.mpr
      (((l.insertionSort (· ≥ ·)).take_sublist k).subperm.trans
        (List.perm_insertionSort (· ≥ ·) l).subperm)
  · intro x hx y hy
    have hcoe : (l : Multiset ℚ) = ((l.insertionSort (· ≥ ·) : List ℚ) : Multiset ℚ) :=
      Multiset.coe_eq_coe.mpr (List.perm_insertionSort (· ≥ ·) l).symm
    have hsub : (l : Multiset ℚ) - (↑((l.insertionSort (· ≥ ·)).take k)) =
        ↑((l.insertionSort (· ≥ ·)).drop k) := by
      have h1 : (l : Multiset ℚ) =
          ↑((l.insertionSort (· ≥ ·)).take k ++ (l.insertionSort (· ≥ ·)).drop k) := by
        rw [List.take_append_drop]
        exact hcoe
      rw [h1, ← Multiset.coe_add, add_tsub_cancel_left]
    rw [hsub] at hy
    have hsorted : List.Sorted (· ≥ ·) (l.insertionSort (· ≥ ·)) :=
      List.sorted_insertionSort (· ≥ ·) l
    rw [← List.take_append_drop k (l.insertionSort (· ≥ ·))] at hsorted
    exact (List.pairwise_append.mp hsorted).2.2 x hx y (Multiset.mem_coe.mp hy)

/-- C1: for `top_k ≥ 1`, the score recorded for the category at any
position `j` of the grouping is the arithmetic mean of
`k = min(top_k, number_of_prompts_in_category)` values selected from the
similarities at that category's own row indices, the selection dominating
every unselected value there; and any `top_k` at least the category's
prompt count yields the same score entry as `top_k` equal to that count. -/
theorem claim_C1_topk_mean_scoring (sims : List ℚ)
    (cidx : List (String × List ℕ)) (top_k j : ℕ) (c : String) (is : List ℕ)
    (hk : 1 ≤ top_k) (hci : cidx[j]? = some (c, is)) :
    ∃ sel : List ℚ,
      (categoryScores sims cidx top_k)[j]? =
        some (c, sel.sum / ((min top_k is.length : ℕ) : ℚ)) ∧
      sel.length = min top_k is.length ∧
      (↑sel : Multiset ℚ) ≤ ↑(is.map fun i => sims.getD i 0) ∧
      (∀ x ∈ sel,
        ∀ y ∈ ((↑(is.map fun i => sims.getD i 0) : Multiset ℚ) - ↑sel), y ≤ x) ∧
      (∀ tk, is.length ≤ tk →
        (categoryScores sims cidx tk)[j]? =
          (categoryScores sims cidx is.length)[j]?) := by
  have hglen : (is.map fun i => sims.getD i 0).length = is.length :=
    List.length_map _ _
  obtain ⟨sel, hlen, hle, hdom, hmean⟩ :=
    topk_select (is.map fun i => sims.getD i 0) (min top_k is.length)
      (by rw [hglen]; exact min_le_right _ _)
  refine ⟨sel, ?_, hlen, hle, hdom, ?_⟩
  · rw [categoryScores, List.getElem?_map, hci]
    simp only [Option.map_some']
    rw [← hmean]
  · intro tk htk
    rw [categoryScores, List.getElem?_map, hci,
      categoryScores, List.getElem?_map, hci]
    simp only [Option.map_some']
    have h1 : min tk is.length = is.length := min_eq_right htk
    have h2 : min is.length is.length = is.length := min_self _
    rw [h1, h2]

/-- Witness for C1: similarities `[10, 20, 30]`, category `"a"` owning rows
0 and 2, `top_k = 2`. -/
theorem claim_C1_topk_mean_scoring_witness :
    1 ≤ 2 ∧
    ([("a", [0, 2]), ("b", [1])] : List (String × List ℕ))[0]? = some ("a", [0, 2]) ∧
    ∃ sel : List ℚ,
      (categoryScores [10, 20, 30] [("a", [0, 2]), ("b", [1])] 2)[0]? =
        some ("a", sel.sum / ((min 2 ([0, 2] : List ℕ).length : ℕ) : ℚ)) ∧
      sel.length = min 2 ([0, 2] : List ℕ).length ∧
      (↑sel : Multiset ℚ) ≤
        ↑(([0, 2] : List ℕ).map fun i => ([10, 20, 30] : List ℚ).getD i 0) ∧
      (∀ x ∈ sel,
        ∀ y ∈ ((↑(([0, 2] : List ℕ).map fun i => ([10, 20, 30] : List ℚ).getD i 0) :
          Multiset ℚ) - ↑sel), y ≤ x) ∧
      (∀ tk, ([0, 2] : List ℕ).length ≤ tk →
        (categoryScores [10, 20, 30] [("a", [0, 2]), ("b", [1])] tk)[0]? =
          (categoryScores [10, 20, 30] [("a", [0, 2]), ("b", [1])]
            ([0, 2] : List ℕ).length)[0]?) :=
  ⟨by decide, by decide,
    claim_C1_topk_mean_scoring [10, 20, 30] [("a", [0, 2]), ("b", [1])] 2 0
      "a" [0, 2] (by decide) (by decide)⟩

/-- Python's `max` with a key, folded left with strict-greater
replacement, returns an element that splits the list into strictly
smaller predecessors and no-greater successors: it is the earliest
maximal element. -/
theorem foldl_pyMaxStep_split :
    ∀ (rest : List (String × ℚ)) (p : String × ℚ),
      ∃ pre post, p :: rest = pre ++ (rest.foldl pyMaxStep p) :: post ∧
        (∀ q ∈ pre, q.2 < (rest.foldl pyMaxStep p).2) ∧
        (∀ q ∈ post, q.2 ≤ (rest.foldl pyMaxStep p).2)
  | [], p => ⟨[], [], rfl, by simp, by simp⟩
  | q :: t, p => by
    rw [List.foldl_cons]
    by_cases hpq : p.2 < q.2
    · have hstep : pyMaxStep p q = q := by simp [pyMaxStep, hpq]
      rw [hstep]
      obtain ⟨pre, post, hsplit, hpre, hpost⟩ := foldl_pyMaxStep_split t q
      cases pre with
      | nil =>
        simp only [List.nil_append] at hsplit
        refine ⟨[p], post, ?_, ?_, hpost⟩
        · rw [List.singleton_append, hsplit]
        · intro r hr
          rw [List.mem_singleton] at hr
          subst hr
          have hq : q = t.foldl pyMaxStep q := by
            have := congrArg (fun l => l.head?) hsplit
            simpa using this
          exact hq ▸ hpq
      | cons r pre₂ =>
        have hr : r = q := by
          have := congrArg (fun l => l.head?) hsplit
          simpa using this.symm
        subst hr
        have htail : t = pre₂ ++ (t.foldl pyMaxStep r) :: post := by
          have := congrArg List.tail hsplit
          simpa using this
        refine ⟨p :: r :: pre₂, post, ?_, ?_, hpost⟩
        · conv_lhs => rw [htail]
          simp
        · intro s hs
          rcases List.mem_cons.mp hs with hs | hs
          · subst hs
            exact lt_trans hpq (hpre r (by simp))
          · exact hpre s hs
    · have hstep : pyMaxStep p q = p := by simp [pyMaxStep, hpq]
      rw [hstep]
      have hqp : q.2 ≤ p.2 := le_of_not_lt hpq
      obtain ⟨pre, post, hsplit, hpre, hpost⟩ := foldl_pyMaxStep_split t p
      cases pre with
      | nil =>
        simp only [List.nil_append] at hsplit
        have hp : p = t.foldl pyMaxStep p := by
          have := congrArg (fun l => l.head?) hsplit
          simpa using this
        have htail : t = post := by
          have := congrArg List.tail hsplit
          simpa using this
        refine ⟨[], q :: post, ?_, by simp, ?_⟩
        · rw [List.nil_append, ← hp, ← htail]
        · intro s hs
          rcases List.mem_cons.mp hs with hs | hs
          · subst hs
            exact le_trans hqp (le_of_eq (congrArg Prod.snd hp))
          · exact hpost s hs
      | cons r pre₂ =>
        have hr : r = p := by
          have := congrArg (fun l => l.head?) hsplit
          simpa using this.symm
        subst hr
        have htail : t = pre₂ ++ (t.foldl pyMaxStep r) :: post := by
          have := congrArg List.tail hsplit
          simpa using this
        have hplt : r.2 < (t.foldl pyMaxStep r).2 := hpre r (by simp)
        refine ⟨r :: q :: pre₂, post, ?_, ?_, hpost⟩
        · conv_lhs => rw [htail]
          simp
        · intro s hs
          rcases List.mem_cons.mp hs with hs | hs
          · subst hs; exact hplt
          · rcases List.mem_cons.mp hs with hs | hs
            · subst hs
              exact lt_of_le_of_lt hqp hplt
            · exact hpre s (by simp [hs])

/-- `maxByScore` picks the earliest entry of maximal score: it splits the
score list into a prefix of strictly smaller scores, the winner, and a
suffix of no-greater scores. -/
theorem maxByScore_split (scores : List (String × ℚ)) (best : String × ℚ)
    (h : maxByScore scores = some best) :
    ∃ pre post, scores = pre ++ best :: post ∧
      (∀ q ∈ pre, q.2 < best.2) ∧ (∀ q ∈ post, q.2 ≤ best.2) := by
  cases scores with
  | nil => exact absurd h (by simp [maxByScore])
  | cons p rest =>
    have hb : rest.foldl pyMaxStep p = best := by
      have := h
      simp only [maxByScore] at this
      exact Option.some.inj this
    obtain ⟨pre, post, hsplit, hpre, hpost⟩ := foldl_pyMaxStep_split rest p
    rw [hb] at hsplit hpre hpost
    exact ⟨pre, post, hsplit, hpre, hpost⟩

/-- The scores list carries the categories in grouping order. -/
theorem categoryScores_keys (s : List ℚ) (cidx : List (String × List ℕ)) (k : ℕ) :
    (categoryScores s cidx k).map Prod.fst = cidx.map Prod.fst := by
  simp [categoryScores]

/-- A successful index build stores exactly the grouping computed from the
flattened category list. -/
theorem precompute_ok_indices (embed_text : List String → Except String (List Vec))
    (cats : List (String × List String)) (tf : TextIndex)
    (hpre : precompute_text_features embed_text cats = .ok tf) :
    tf.category_indices =
      buildCategoryIndices ((flattenPrompts cats).map Prod.fst) := by
  simp only [precompute_text_features] at hpre
  rcases hembed : embed_text ((flattenPrompts cats).map (·.2)) with e | feats
  · rw [hembed] at hpre
    exact absurd hpre (by simp)
  · rw [hembed] at hpre
    rw [← Except.ok.inj hpre]

/-- C2: any successful classification over an index built from an ordered
categories mapping (distinct names, no empty prompt lists) reports the
per-category scores in declaration order, and the predicted category with
its confidence is an entry of that list that strictly exceeds every
earlier entry's score and is at least every later entry's score — i.e. it
is the maximal score, with ties broken by earliest declaration, and the
confidence is exactly the winner's score. -/
theorem claim_C2_argmax_earliest_declared {I : Type}
    (decode_image : String → Except String I)
    (embed_image : I → Except String Vec)
    (embed_text : List String → Except String (List Vec))
    (categories : List (String × List String)) (tf : TextIndex)
    (image_path : String) (top_k : ℕ) (c : String) (conf : ℚ)
    (scores : List (String × ℚ))
    (hnd : (categories.map Prod.fst).Nodup)
    (hne : ∀ ci ∈ categories, ci.2 ≠ [])
    (hpre : precompute_text_features embed_text categories = .ok tf)
    (hcl : classify_image decode_image embed_image image_path tf.text_features
      tf.category_indices top_k = .success c conf scores) :
    scores.map Prod.fst = categories.map Prod.fst ∧
    ∃ pre post, scores = pre ++ (c, conf) :: post ∧
      (∀ q ∈ pre, q.2 < conf) ∧ (∀ q ∈ post, q.2 ≤ conf) := by
  simp only [classify_image] at hcl
  rcases hdec : decode_image image_path with e | img
  · simp only [hdec] at hcl
    exact absurd hcl (by simp)
  simp only [hdec] at hcl
  rcases hemb : embed_image img with e | feats
  · simp only [hemb] at hcl
    exact absurd hcl (by simp)
  simp only [hemb] at hcl
  rcases hmax : maxByScore (categoryScores
      (tf.text_features.map (fun t => dot (l2normalize feats) t))
      tf.category_indices top_k) with _ | best
  · simp only [hmax] at hcl
    exact absurd hcl (by simp)
  simp only [hmax] at hcl
  obtain ⟨h1, h2, h3⟩ := Outcome.success.inj hcl
  constructor
  · rw [← h3, categoryScores_keys,
      precompute_ok_indices embed_text categories tf hpre,
      buildCategoryIndices_keys categories hnd]
    congr 1
    exact List.filter_eq_self.mpr (fun ci hci => by
      simpa using hne ci hci)
  · have hbest : (c, conf) = best := by
      rw [← h1, ← h2]
    obtain ⟨pre, post, hsplit, hpre2, hpost⟩ :=
      maxByScore_split _ best hmax
    rw [h3] at hsplit
    refine ⟨pre, post, by rw [hbest]; exact hsplit, ?_, ?_⟩
    · intro q hq
      rw [hbest.symm] at hpre2
      exact hpre2 q hq
    · intro q hq
      rw [hbest.symm] at hpost
      exact hpost q hq

/-- Witness for C2 at the spec's tie case: two categories with identical
scores; the earliest declared ("a") wins with confidence equal to its
score. -/
theorem claim_C2_argmax_earliest_declared_witness :
    ([("a", (1 : ℚ)), ("b", 1)]).map Prod.fst =
      ([("a", ["pa"]), ("b", ["pb"])]).map Prod.fst ∧
    ∃ pre post, ([("a", (1 : ℚ)), ("b", 1)]) = pre ++ ("a", (1 : ℚ)) :: post ∧
      (∀ q ∈ pre, q.2 < (1 : ℚ)) ∧ (∀ q ∈ post, q.2 ≤ (1 : ℚ)) :=
  claim_C2_argmax_earliest_declared (I := Unit)
    (fun _ => Except.ok ()) (fun _ => Except.ok [1, 0])
    (fun ps => Except.ok (ps.map fun _ => [1, 0]))
    [("a", ["pa"]), ("b", ["pb"])]
    ⟨[[1, 0], [1, 0]], ["a", "b"], [("a", [0]), ("b", [1])]⟩
    "img.png" 3 "a" 1 [("a", 1), ("b", 1)]
    (by decide) (by decide)
    (by simp [precompute_text_features, flattenPrompts, l2normalize, vecNorm2,
      dot, buildCategoryIndices, buildIndicesGo, addIndex])
    (by simp [classify_image, l2normalize, vecNorm2, dot, categoryScores,
      topkMean, maxByScore, pyMaxStep, List.insertionSort, List.orderedInsert])

end Picpocket
